import Mathlib

/-!
Verification of the multi-label emotion classification engine.

Shallow embedding of the classification-specific logic of
`AI_Work/train_emotion_classifier.py` and
`backend/apps/ai/model_predictors.py`:

* `preprocess_text`            — the Text Normalizer (training-time cleaning),
* `FocalLoss.forward`          — the focal loss over logits,
* `calculate_class_weights`    — per-label positive-class weights,
* `prepare_emotion_labels`     — label extraction from a dataframe,
* `find_optimal_thresholds`    — per-label decision-threshold search,
* `EmotionPredictor.init` / `predict_results` — the inference engine.

Machine floats are modelled as exact rationals (`ℚ`) and, for the
transcendental loss, as reals (`ℝ`).  Binary label columns are modelled as
`List Bool` where the Python code stores `0.0`/`1.0` floats and as `{0,1}`
rationals where the code sums them.
-/

namespace HackX

attribute [local semireducible] Rat.mul Rat.add Rat.sub Rat.inv

/-- Embedding of `sklearn.metrics.f1_score(yTrue, yPred, zero_division=0)`
for binary labels (positive class = `true`): `2·tp / (2·tp + fp + fn)`,
and `0` when the denominator is `0` (the `zero_division=0` convention;
this closed form agrees with sklearn's `2·P·R/(P+R)` in every case). -/
def f1_score (yTrue yPred : List Bool) : ℚ :=
  let pairs := yTrue.zip yPred
  let tp := (pairs.filter (fun p => p.1 && p.2)).length
  let fp := (pairs.filter (fun p => !p.1 && p.2)).length
  let fn := (pairs.filter (fun p => p.1 && !p.2)).length
  if 2 * tp + fp + fn = 0 then 0 else (2 * tp : ℚ) / ((2 * tp + fp + fn : ℕ) : ℚ)

/-- F1 of thresholded predictions: `preds = (probs[:, i] >= threshold)`
(train_emotion_classifier.py line 626) followed by `f1_score`. -/
def f1_at (ys : List Bool) (ps : List ℚ) (t : ℚ) : ℚ :=
  f1_score ys (ps.map (fun p => decide (t ≤ p)))

/-- The 100 threshold candidates `np.linspace(0.01, 0.99, 100)`
(train_emotion_classifier.py line 625): `0.01 + k·(0.98/99)` for `k < 100`. -/
def threshold_grid : List ℚ :=
  (List.range 100).map (fun (k : ℕ) => 1 / 100 + (k : ℚ) * (49 / 4950))

/-- One iteration of the threshold-search loop body
(train_emotion_classifier.py lines 625-631): the accumulator is the pair
`(best_f1, best_threshold)`, updated only on strict F1 improvement. -/
def best_step (ys : List Bool) (ps : List ℚ) (acc : ℚ × ℚ) (t : ℚ) : ℚ × ℚ :=
  let f1 := f1_at ys ps t
  if acc.1 < f1 then (f1, t) else acc

/-- The per-label search of `find_optimal_thresholds`
(train_emotion_classifier.py lines 620-633): start from
`best_f1 = 0`, `best_threshold = 0.5` and fold the candidate grid. -/
def best_threshold (ys : List Bool) (ps : List ℚ) : ℚ :=
  (threshold_grid.foldl (best_step ys ps) ((0 : ℚ), (1 / 2 : ℚ))).2

/-- Column `i` of a rational matrix stored as a list of rows
(the embedding of `m[:, i]`). -/
def column (m : List (List ℚ)) (i : Nat) : List ℚ :=
  m.map (fun row => row.getD i 0)

/-- Column `i` of a boolean matrix stored as a list of rows. -/
def bcolumn (m : List (List Bool)) (i : Nat) : List Bool :=
  m.map (fun row => row.getD i false)

/-- Embedding of `find_optimal_thresholds(labels, probs, emotion_names)`
(train_emotion_classifier.py lines 615-636): one best threshold per
emotion name, searched independently on that label's column. -/
def find_optimal_thresholds (labels : List (List Bool)) (probs : List (List ℚ))
    (emotionNames : List String) : List ℚ :=
  (List.range emotionNames.length).map
    (fun i => best_threshold (bcolumn labels i) (column probs i))

/-- Embedding of `calculate_class_weights(labels)`
(train_emotion_classifier.py lines 157-178): for each label column,
`weight = min(neg_count / pos_count, 10)` when the column has strictly
positive `pos_count` and `neg_count`, else `1.0`.  The binary float matrix
is modelled as a list of rows of rationals; `n_samples, n_classes =
labels.shape` become the row count and the first row's width. -/
def calculate_class_weights (labels : List (List ℚ)) : List ℚ :=
  let nSamples := labels.length
  let nClasses := (labels.headD []).length
  (List.range nClasses).map (fun i =>
    let posCount := (column labels i).sum
    let negCount := (nSamples : ℚ) - posCount
    if 0 < posCount ∧ 0 < negCount then min (negCount / posCount) 10 else 1)

/-- Whitespace in the ASCII fragment of a Python regex `\s`
(space, tab, newline, carriage return, vertical tab, form feed). -/
def isPySpace (c : Char) : Bool :=
  c == ' ' || c == '\t' || c == '\n' || c == '\r' ||
    c == Char.ofNat 11 || c == Char.ofNat 12

/-- Word characters of the ASCII fragment of a Python regex `\w`. -/
def isWordChar (c : Char) : Bool :=
  c.isAlphanum || c == '_'

/-- Attempt to match the regex fragment `<pre><keep>+` (a literal prefix
followed by a non-empty greedy run) at the head of `l`; on success return
the remainder after the match. -/
def matchRun (pre : List Char) (keep : Char → Bool) (l : List Char) :
    Option (List Char) :=
  if pre.isPrefixOf l then
    let rest := l.drop pre.length
    let run := rest.takeWhile keep
    if run.isEmpty then none else some (rest.drop run.length)
  else none

/-- Attempt to match a literal case-insensitively at the head of `l`;
on success return the remainder. -/
def matchLiteralCI (lit : List Char) (l : List Char) : Option (List Char) :=
  if (l.take lit.length).map Char.toLower == lit then some (l.drop lit.length)
  else none

/-- Embedding of `re.sub(r'http\S+|www\S+|https\S+', '', text)`
(train_emotion_classifier.py line 76), scanning left to right and deleting
non-overlapping matches.  The `https\S+` alternative is subsumed by
`http\S+` and never fires.  The fuel argument bounds recursion and always
suffices when instantiated with the input length, since every step consumes
at least one character. -/
def stripUrlsAux : Nat → List Char → List Char
  | 0, l => l
  | _ + 1, [] => []
  | fuel + 1, c :: cs =>
    match matchRun "http".toList (fun ch => !isPySpace ch) (c :: cs) with
    | some rest => stripUrlsAux fuel rest
    | none =>
      match matchRun "www".toList (fun ch => !isPySpace ch) (c :: cs) with
      | some rest => stripUrlsAux fuel rest
      | none => c :: stripUrlsAux fuel cs

/-- Embedding of `re.sub(r'/r/\w+|/u/\w+', '', text)`
(train_emotion_classifier.py line 79). -/
def stripMentionsAux : Nat → List Char → List Char
  | 0, l => l
  | _ + 1, [] => []
  | fuel + 1, c :: cs =>
    match matchRun "/r/".toList isWordChar (c :: cs) with
    | some rest => stripMentionsAux fuel rest
    | none =>
      match matchRun "/u/".toList isWordChar (c :: cs) with
      | some rest => stripMentionsAux fuel rest
      | none => c :: stripMentionsAux fuel cs

/-- Embedding of `re.sub(r'\[deleted\]|\[removed\]', '', text,
flags=re.IGNORECASE)` (train_emotion_classifier.py line 80). -/
def stripPlaceholdersAux : Nat → List Char → List Char
  | 0, l => l
  | _ + 1, [] => []
  | fuel + 1, c :: cs =>
    match matchLiteralCI "[deleted]".toList (c :: cs) with
    | some rest => stripPlaceholdersAux fuel rest
    | none =>
      match matchLiteralCI "[removed]".toList (c :: cs) with
      | some rest => stripPlaceholdersAux fuel rest
      | none => c :: stripPlaceholdersAux fuel cs

/-- Embedding of `re.sub(r'\s+', ' ', text)`
(train_emotion_classifier.py line 83): each maximal whitespace run becomes
one space. -/
def collapseSpacesAux : Nat → List Char → List Char
  | 0, l => l
  | _ + 1, [] => []
  | fuel + 1, c :: cs =>
    if isPySpace c then ' ' :: collapseSpacesAux fuel (cs.dropWhile isPySpace)
    else c :: collapseSpacesAux fuel cs

/-- Embedding of Python `str.strip()` restricted to ASCII whitespace. -/
def pyStrip (l : List Char) : List Char :=
  ((l.dropWhile isPySpace).reverse.dropWhile isPySpace).reverse

/-- Embedding of `preprocess_text(text)` — the Text Normalizer
(train_emotion_classifier.py lines 67-93): remove URLs, then subreddit and
user mentions, then moderation placeholders, collapse whitespace runs,
strip, and replace a result shorter than 3 characters by the sentinel
`[empty]`. -/
def preprocess_text (s : String) : String :=
  let l0 := s.toList
  let l1 := stripUrlsAux l0.length l0
  let l2 := stripMentionsAux l1.length l1
  let l3 := stripPlaceholdersAux l2.length l2
  let l4 := collapseSpacesAux l3.length l3
  let l5 := pyStrip l4
  if l5.length < 3 then "[empty]" else String.mk l5

/-- Normalization applied to a text before encoding at training time:
`MultiLabelEmotionDataset.__getitem__` (train_emotion_classifier.py lines
219-224) applies `preprocess_text` (the training pipeline constructs all
its datasets with `preprocess=True`). -/
def training_normalize (s : String) : String :=
  preprocess_text s

/-- Normalization applied to a text before encoding at inference time:
`EmotionPredictor.predict` (model_predictors.py lines 147-154) passes
`str(text)` directly to the tokenizer, which is the identity on strings. -/
def inference_normalize (s : String) : String :=
  s

/-- Embedding of `torch.sigmoid` over exact reals. -/
noncomputable def sigmoid (x : ℝ) : ℝ :=
  1 / (1 + Real.exp (-x))

/-- Embedding of the `p_t = probs * targets + (1 - probs) * (1 - targets)`
computation of `FocalLoss.forward` (train_emotion_classifier.py line 112). -/
noncomputable def p_t (x z : ℝ) : ℝ :=
  sigmoid x * z + (1 - sigmoid x) * (1 - z)

/-- Embedding of `F.binary_cross_entropy_with_logits(inputs, targets,
reduction='none')` per element (train_emotion_classifier.py line 118),
using the numerically stable formulation documented for PyTorch:
`max(x, 0) - x*z + log(1 + exp(-|x|))`. -/
noncomputable def bce_with_logits (x z : ℝ) : ℝ :=
  max x 0 - x * z + Real.log (1 + Real.exp (-|x|))

/-- One element of the focal-loss matrix
(train_emotion_classifier.py lines 107-121):
`alpha * (1 - p_t) ** gamma * bce`. -/
noncomputable def focal_elem (alpha gamma x z : ℝ) : ℝ :=
  alpha * (1 - p_t x z) ^ gamma * bce_with_logits x z

/-- Elementwise combination of two matrices stored as lists of rows. -/
def matZipWith (f : ℝ → ℝ → ℝ) (X Z : List (List ℝ)) : List (List ℝ) :=
  List.zipWith (List.zipWith f) X Z

/-- Sum of all entries of a real matrix. -/
def matSum (m : List (List ℝ)) : ℝ :=
  (m.map List.sum).sum

/-- Number of entries of a real matrix (`numel`). -/
def matCount (m : List (List ℝ)) : ℕ :=
  (m.map List.length).sum

/-- Embedding of `tensor.mean()`: sum of all entries over their number. -/
noncomputable def matMean (m : List (List ℝ)) : ℝ :=
  matSum m / (matCount m : ℝ)

/-- Embedding of `FocalLoss.forward(inputs, targets)` with
`reduction='mean'` (train_emotion_classifier.py lines 107-124): the mean
over all entries of `alpha * (1 - p_t) ** gamma * bce_with_logits`. -/
noncomputable def FocalLoss.forward (alpha gamma : ℝ) (X Z : List (List ℝ)) : ℝ :=
  matMean (matZipWith (focal_elem alpha gamma) X Z)

/-- Constructor defaults of `FocalLoss.__init__(self, alpha=1.0, gamma=2.0,
reduction='mean')` (train_emotion_classifier.py line 101). -/
structure FocalLossParams where
  alpha : ℝ := 1
  gamma : ℝ := 2

/-- JSON-like values, enough to model the persisted metadata bundles. -/
inductive JsonVal where
  | jstr : String → JsonVal
  | jnum : ℚ → JsonVal
  | jarr : List JsonVal → JsonVal

/-- A JSON object: an association list from keys to values. -/
abbrev JsonObj := List (String × JsonVal)

/-- Embedding of the metadata bundle the trainer persists
(train_emotion_classifier.py lines 596-603): the file `emotion_info.json`
holding keys `emotion_names`, `num_emotions` (`num_labels =
len(emotion_names)`, line 418) and `optimal_thresholds`. -/
def trainer_metadata_file (emotionNames : List String)
    (optimalThresholds : List ℚ) : String × JsonObj :=
  ("emotion_info.json",
    [("emotion_names", .jarr (emotionNames.map .jstr)),
     ("num_emotions", .jnum emotionNames.length),
     ("optimal_thresholds", .jarr (optimalThresholds.map .jnum))])

/-- The observable file-system state the emotion predictor constructor
reads: whether the model directory exists, and the JSON files inside it. -/
structure ModelDir where
  present : Bool
  files : List (String × JsonObj)

/-- An engine as loaded by `EmotionPredictor.__init__`: the raw values of
the `emotions` and `thresholds` keys, stored without any validation. -/
structure EmotionEngineRaw where
  emotions : JsonVal
  thresholds : JsonVal

/-- Errors `EmotionPredictor.__init__` can raise: `FileNotFoundError` for a
missing directory or config file, `KeyError` for a missing metadata key. -/
inductive PredictorError where
  | fileNotFound : String → PredictorError
  | keyError : String → PredictorError
deriving DecidableEq

/-- Embedding of `EmotionPredictor.__init__` (model_predictors.py lines
108-134): raise `FileNotFoundError` if the model path does not exist;
raise `FileNotFoundError` if `emotion_config.json` is missing; otherwise
read `meta['emotions']` and `meta['thresholds']` (a `KeyError` when a key
is absent) and store them without further validation. -/
def EmotionPredictor.init (dir : ModelDir) : Except PredictorError EmotionEngineRaw :=
  if !dir.present then .error (.fileNotFound "Emotion model not found")
  else
    match dir.files.lookup "emotion_config.json" with
    | none => .error (.fileNotFound "Emotion config not found")
    | some meta =>
      match meta.lookup "emotions" with
      | none => .error (.keyError "emotions")
      | some es =>
        match meta.lookup "thresholds" with
        | none => .error (.keyError "thresholds")
        | some ts => .ok ⟨es, ts⟩

/-- Round half to even, the semantics of Python `round` on an exact value. -/
def round_half_even (q : ℚ) : ℤ :=
  if q - ⌊q⌋ < 1 / 2 then ⌊q⌋
  else if 1 / 2 < q - ⌊q⌋ then ⌊q⌋ + 1
  else if ⌊q⌋ % 2 = 0 then ⌊q⌋ else ⌊q⌋ + 1

/-- Embedding of Python `round(x, 4)` over exact rationals. -/
def pyround4 (q : ℚ) : ℚ :=
  (round_half_even (q * 10000) : ℚ) / 10000

/-- Embedding of the result construction of `EmotionPredictor.predict`
(model_predictors.py lines 165-175), taking the multi-label sigmoid
probabilities as input (the encoder forward pass is opaque): keep, for each
vocabulary index, the emotions with `return_all or probs[i] >=
thresholds[i]`, with confidence `round(float(probs[i]), 4)`, and return
them sorted by descending confidence (Python `sorted(..., reverse=True)`
is a stable sort, which insertion sort by `b.2 ≤ a.2` implements). -/
def predict_results (emotions : List String) (thresholds : List ℚ)
    (probs : List ℚ) (returnAll : Bool) : List (String × ℚ) :=
  let results := (List.range emotions.length).filterMap (fun i =>
    if returnAll || decide (thresholds.getD i 0 ≤ probs.getD i 0) then
      some (emotions.getD i "", pyround4 (probs.getD i 0))
    else none)
  List.insertionSort (fun a b => b.2 ≤ a.2) results

/-- The fixed candidate vocabulary `DEPRESSION_EMOTIONS`
(train_emotion_classifier.py lines 48-57). -/
def DEPRESSION_EMOTIONS : List String :=
  ["sadness", "emptiness", "hopelessness", "loneliness",
   "anger", "guilt", "shame", "fear"]

/-- The additional candidate emotions `ADDITIONAL_EMOTIONS`
(train_emotion_classifier.py lines 60-64). -/
def ADDITIONAL_EMOTIONS : List String :=
  ["worthlessness", "suicide_intent", "brain_dysfunction"]

/-- An emotion column of the dataframe: numeric (float dtype) or strings
(object dtype).  Mixed-dtype columns are outside the modelled fragment. -/
inductive EmotionColumn where
  | numeric : List ℚ → EmotionColumn
  | strings : List String → EmotionColumn
deriving DecidableEq

/-- The dataframe fragment `prepare_emotion_labels` reads: presence of the
`text` column and its values, the candidate emotion columns, and the
optional `emotions_list` column (modelled as already-parsed lists, the
`ast.literal_eval` path of lines 324-331). -/
structure DataFrame where
  hasTextColumn : Bool
  texts : List String
  emotionCols : List (String × EmotionColumn)
  emotionsList : Option (List (List String))

/-- Embedding of the per-column binarization of `prepare_emotion_labels`
(train_emotion_classifier.py lines 306-310): an object-dtype column is
lowercased and tested against `['true', '1', 'yes']`; a numeric column is
used as floats directly. -/
def columnToLabels : EmotionColumn → List ℚ
  | .numeric vs => vs
  | .strings vs =>
    vs.map (fun s =>
      if s.toLower == "true" || s.toLower == "1" || s.toLower == "yes"
      then (1 : ℚ) else 0)

/-- Embedding of the emotion-column scan of `prepare_emotion_labels`
(train_emotion_classifier.py lines 303-315): for each candidate emotion
present as a dataframe column, binarize it and keep it only when it has at
least one positive sample (`labels.sum() > 0`). -/
def selectEmotionColumns (df : DataFrame) : List (String × List ℚ) :=
  (DEPRESSION_EMOTIONS ++ ADDITIONAL_EMOTIONS).filterMap (fun emo =>
    match df.emotionCols.lookup emo with
    | none => none
    | some col =>
      let labels := columnToLabels col
      if 0 < labels.sum then some (emo, labels) else none)

/-- Embedding of the `emotions_list` fallback of `prepare_emotion_labels`
(train_emotion_classifier.py lines 318-344): collect the emotions appearing
in the column, sort them, build membership indicators, and keep the ones
with at least one positive sample. -/
def fallbackEmotionColumns (rows : List (List String)) : List (String × List ℚ) :=
  let allEmotions := List.insertionSort (fun a b => a ≤ b) rows.flatten.dedup
  allEmotions.filterMap (fun emo =>
    let labels := rows.map (fun r => if emo ∈ r then (1 : ℚ) else 0)
    if 0 < labels.sum then some (emo, labels) else none)

/-- The emotion columns `prepare_emotion_labels` ends up with: the scanned
dataframe columns, or, when that yields nothing and an `emotions_list`
column exists, the fallback extraction. -/
def chosenColumns (df : DataFrame) : List (String × List ℚ) :=
  let found := selectEmotionColumns df
  if found.isEmpty then
    match df.emotionsList with
    | some rows => fallbackEmotionColumns rows
    | none => []
  else found

/-- Embedding of `np.stack(emotion_labels, axis=1)`: row `i` of the result
collects entry `i` of every column. -/
def stackColumns (cols : List (List ℚ)) (n : Nat) : List (List ℚ) :=
  (List.range n).map (fun i => cols.map (fun c => c.getD i 0))

/-- Embedding of `prepare_emotion_labels(df)`
(train_emotion_classifier.py lines 285-358): require a `text` column,
gather the usable emotion columns (dropping any candidate without positive
samples), raise `ValueError` when none remains, and otherwise return the
texts, the stacked binary label matrix, and the retained emotion names. -/
def prepare_emotion_labels (df : DataFrame) :
    Except String (List String × List (List ℚ) × List String) :=
  if !df.hasTextColumn then .error "text column not found in dataframe"
  else
    let found := chosenColumns df
    if found.isEmpty then .error "No emotion columns found in dataframe"
    else .ok (df.texts, stackColumns (found.map Prod.snd) df.texts.length,
              found.map Prod.fst)

lemma f1_score_nonneg (yTrue yPred : List Bool) : 0 ≤ f1_score yTrue yPred := by
  unfold f1_score
  dsimp only
  split
  · exact le_refl 0
  · positivity

lemma f1_at_nonneg (ys : List Bool) (ps : List ℚ) (t : ℚ) : 0 ≤ f1_at ys ps t :=
  f1_score_nonneg _ _

/-- Invariant of the threshold-search fold: the final accumulator dominates
the F1 of every scanned candidate, its F1 component never decreases, it is
either the initial accumulator or a scanned candidate paired with its own F1,
and it is exactly the initial accumulator when no candidate improves on it. -/
lemma best_fold_spec (ys : List Bool) (ps : List ℚ) :
    ∀ (l : List ℚ) (acc : ℚ × ℚ),
      acc.1 ≤ (l.foldl (best_step ys ps) acc).1 ∧
      (∀ t ∈ l, f1_at ys ps t ≤ (l.foldl (best_step ys ps) acc).1) ∧
      (l.foldl (best_step ys ps) acc = acc ∨
        ((l.foldl (best_step ys ps) acc).2 ∈ l ∧
          f1_at ys ps (l.foldl (best_step ys ps) acc).2 =
            (l.foldl (best_step ys ps) acc).1)) ∧
      ((∀ t ∈ l, f1_at ys ps t ≤ acc.1) → l.foldl (best_step ys ps) acc = acc) := by
  intro l
  induction l with
  | nil =>
    intro acc
    exact ⟨le_refl _, by simp, Or.inl rfl, fun _ => rfl⟩
  | cons t ts ih =>
    intro acc
    have hstep : ts.foldl (best_step ys ps) (best_step ys ps acc t) =
        (t :: ts).foldl (best_step ys ps) acc := rfl
    obtain ⟨ih1, ih2, ih3, ih4⟩ := ih (best_step ys ps acc t)
    by_cases h : acc.1 < f1_at ys ps t
    · have hacc : best_step ys ps acc t = (f1_at ys ps t, t) := by
        unfold best_step; simp [h]
      rw [hacc] at ih1 ih2 ih3 ih4
      refine ⟨?_, ?_, ?_, ?_⟩
      · rw [← hstep, hacc]
        exact le_trans (le_of_lt h) ih1
      · intro u hu
        rw [← hstep, hacc]
        rcases List.mem_cons.mp hu with h' | h'
        · subst h'; exact ih1
        · exact ih2 u h'
      · rw [← hstep, hacc]
        rcases ih3 with h' | h'
        · right
          constructor
          · rw [h']; exact List.mem_cons_self t ts
          · rw [h']
        · exact Or.inr ⟨List.mem_cons_of_mem t h'.1, h'.2⟩
      · intro hall
        exact absurd (hall t (List.mem_cons_self t ts)) (not_le.mpr h)
    · have hacc : best_step ys ps acc t = acc := by
        unfold best_step; simp [h]
      rw [hacc] at ih1 ih2 ih3 ih4
      refine ⟨?_, ?_, ?_, ?_⟩
      · rw [← hstep, hacc]; exact ih1
      · intro u hu
        rw [← hstep, hacc]
        rcases List.mem_cons.mp hu with h' | h'
        · subst h'; exact le_trans (le_of_not_lt h) ih1
        · exact ih2 u h'
      · rw [← hstep, hacc]
        rcases ih3 with h' | h'
        · exact Or.inl h'
        · exact Or.inr ⟨List.mem_cons_of_mem t h'.1, h'.2⟩
      · intro hall
        rw [← hstep, hacc]
        exact ih4 (fun u hu => hall u (List.mem_cons_of_mem t hu))

/-- When some grid candidate attains a strictly positive F1, the returned
threshold is a grid candidate whose F1 dominates every candidate's F1. -/
lemma best_threshold_maximizes (ys : List Bool) (ps : List ℚ)
    (h : ∃ c ∈ threshold_grid, 0 < f1_at ys ps c) :
    best_threshold ys ps ∈ threshold_grid ∧
      ∀ c ∈ threshold_grid, f1_at ys ps c ≤ f1_at ys ps (best_threshold ys ps) := by
  obtain ⟨c, hc, hcpos⟩ := h
  obtain ⟨h1, h2, h3, _⟩ := best_fold_spec ys ps threshold_grid ((0 : ℚ), (1 / 2 : ℚ))
  rcases h3 with heq | ⟨hmem, hval⟩
  · exfalso
    have := h2 c hc
    rw [heq] at this
    exact absurd (lt_of_lt_of_le hcpos this) (lt_irrefl 0)
  · refine ⟨hmem, fun d hd => ?_⟩
    unfold best_threshold
    rw [hval]
    exact h2 d hd

/-- When every grid candidate has F1 at most `0`, the fold never updates and
the returned threshold is the default `0.5`. -/
lemma best_threshold_default (ys : List Bool) (ps : List ℚ)
    (h : ∀ c ∈ threshold_grid, f1_at ys ps c ≤ 0) :
    best_threshold ys ps = 1 / 2 := by
  obtain ⟨_, _, _, h4⟩ := best_fold_spec ys ps threshold_grid ((0 : ℚ), (1 / 2 : ℚ))
  unfold best_threshold
  rw [h4 h]

lemma best_threshold_mem_or_default (ys : List Bool) (ps : List ℚ) :
    best_threshold ys ps = 1 / 2 ∨ best_threshold ys ps ∈ threshold_grid := by
  obtain ⟨_, _, h3, _⟩ := best_fold_spec ys ps threshold_grid ((0 : ℚ), (1 / 2 : ℚ))
  rcases h3 with heq | ⟨hmem, _⟩
  · left; unfold best_threshold; rw [heq]
  · right; exact hmem

lemma threshold_grid_length : threshold_grid.length = 100 := by
  unfold threshold_grid
  rw [List.length_map, List.length_range]

lemma threshold_grid_bounds :
    ∀ c ∈ threshold_grid, 1 / 100 ≤ c ∧ c ≤ 99 / 100 := by
  intro c hc
  unfold threshold_grid at hc
  simp only [List.mem_map, List.mem_range] at hc
  obtain ⟨k, hk', rfl⟩ := hc
  have hkq : (k : ℚ) ≤ 99 := by exact_mod_cast Nat.lt_succ_iff.mp hk'
  have hkq0 : (0 : ℚ) ≤ (k : ℚ) := Nat.cast_nonneg k
  constructor
  · nlinarith
  · nlinarith

lemma find_optimal_thresholds_length (labels : List (List Bool))
    (probs : List (List ℚ)) (emotionNames : List String) :
    (find_optimal_thresholds labels probs emotionNames).length =
      emotionNames.length := by
  unfold find_optimal_thresholds
  simp

lemma find_optimal_thresholds_getD (labels : List (List Bool))
    (probs : List (List ℚ)) (emotionNames : List String) (i : Nat)
    (hi : i < emotionNames.length) :
    (find_optimal_thresholds labels probs emotionNames).getD i 0 =
      best_threshold (bcolumn labels i) (column probs i) := by
  unfold find_optimal_thresholds
  rw [List.getD_eq_getElem?_getD]
  rw [List.getElem?_map, List.getElem?_range hi]
  rfl

/-- C1: for every label independently, the Threshold Optimizer sweeps 100
threshold candidates between 0.01 and 0.99 over that label's validation
probabilities, computes F1 at each candidate (predicting present iff the
probability is at least the candidate), and returns a candidate achieving
the maximum F1; when no candidate achieves an F1 strictly greater than 0,
the returned threshold is 0.5. -/
theorem C1_threshold_sweep (labels : List (List Bool)) (probs : List (List ℚ))
    (emotionNames : List String) (i : Nat) (hi : i < emotionNames.length) :
    threshold_grid.length = 100 ∧
    (∀ c ∈ threshold_grid, 1 / 100 ≤ c ∧ c ≤ 99 / 100) ∧
    ((∃ c ∈ threshold_grid,
        0 < f1_at (bcolumn labels i) (column probs i) c) →
      (find_optimal_thresholds labels probs emotionNames).getD i 0 ∈ threshold_grid ∧
      ∀ c ∈ threshold_grid,
        f1_at (bcolumn labels i) (column probs i) c ≤
          f1_at (bcolumn labels i) (column probs i)
            ((find_optimal_thresholds labels probs emotionNames).getD i 0)) ∧
    ((∀ c ∈ threshold_grid, f1_at (bcolumn labels i) (column probs i) c ≤ 0) →
      (find_optimal_thresholds labels probs emotionNames).getD i 0 = 1 / 2) := by
  rw [find_optimal_thresholds_getD labels probs emotionNames i hi]
  exact ⟨threshold_grid_length, threshold_grid_bounds,
    best_threshold_maximizes _ _, best_threshold_default _ _⟩

/-- Witness for C1 at a concrete instance (one emotion, empty validation
set, hence no candidate with positive F1). -/
theorem C1_threshold_sweep_witness :
    threshold_grid.length = 100 ∧
    (∀ c ∈ threshold_grid, 1 / 100 ≤ c ∧ c ≤ 99 / 100) ∧
    ((∃ c ∈ threshold_grid,
        0 < f1_at (bcolumn [] 0) (column [] 0) c) →
      (find_optimal_thresholds [] [] ["sadness"]).getD 0 0 ∈ threshold_grid ∧
      ∀ c ∈ threshold_grid,
        f1_at (bcolumn [] 0) (column [] 0) c ≤
          f1_at (bcolumn [] 0) (column [] 0)
            ((find_optimal_thresholds [] [] ["sadness"]).getD 0 0)) ∧
    ((∀ c ∈ threshold_grid, f1_at (bcolumn [] 0) (column [] 0) c ≤ 0) →
      (find_optimal_thresholds [] [] ["sadness"]).getD 0 0 = 1 / 2) :=
  C1_threshold_sweep [] [] ["sadness"] 0 (by decide)

lemma f1_at_pair_low {t : ℚ} (h1 : t ≤ 497 / 1000) :
    f1_at [false, true] [497 / 1000, 502 / 1000] t = 2 / 3 := by
  have h2 : t ≤ 502 / 1000 := le_trans h1 (by norm_num)
  unfold f1_at
  have hmap : ([497 / 1000, 502 / 1000] : List ℚ).map (fun p => decide (t ≤ p))
      = [true, true] := by
    simp [h1, h2]
  rw [hmap]
  decide

lemma f1_at_pair_high {t : ℚ} (h1 : 502 / 1000 < t) :
    f1_at [false, true] [497 / 1000, 502 / 1000] t = 0 := by
  have h2 : ¬ (t ≤ 502 / 1000) := not_le.mpr h1
  have h3 : ¬ (t ≤ 497 / 1000) := fun hc => h2 (le_trans hc (by norm_num))
  unfold f1_at
  have hmap : ([497 / 1000, 502 / 1000] : List ℚ).map (fun p => decide (t ≤ p))
      = [false, false] := by
    simp [h2, h3]
  rw [hmap]
  decide

lemma grid_avoids_gap :
    ∀ c ∈ threshold_grid, c ≤ 497 / 1000 ∨ 502 / 1000 < c := by
  intro c hc
  simp only [threshold_grid, List.mem_map, List.mem_range] at hc
  obtain ⟨k, hk, rfl⟩ := hc
  by_cases h49 : k ≤ 49
  · left
    have hkq : (k : ℚ) ≤ 49 := by exact_mod_cast h49
    nlinarith
  · right
    have h50 : 50 ≤ k := Nat.succ_le_of_lt (Nat.lt_of_not_le h49)
    have hkq : (50 : ℚ) ≤ (k : ℚ) := by exact_mod_cast h50
    nlinarith

/-- C2 fails: with validation labels `[0, 1]` and probabilities
`[0.497, 0.502]` on a single label, both probabilities fall in the gap
between the grid candidates nearest to 0.5, so every grid candidate scores
F1 at most 2/3 while threshold 0.5 scores F1 = 1; the optimizer returns a
grid candidate, whose validation F1 is strictly below the F1 at 0.5. -/
theorem C2_counterexample :
    f1_at (bcolumn [[false], [true]] 0) (column [[497 / 1000], [502 / 1000]] 0)
        ((find_optimal_thresholds [[false], [true]] [[497 / 1000], [502 / 1000]]
          ["sadness"]).getD 0 0) <
      f1_at (bcolumn [[false], [true]] 0) (column [[497 / 1000], [502 / 1000]] 0)
        (1 / 2) := by
  have hys : bcolumn [[false], [true]] 0 = [false, true] := rfl
  have hps : column [[497 / 1000], [502 / 1000]] 0 = [497 / 1000, 502 / 1000] := rfl
  rw [find_optimal_thresholds_getD _ _ _ 0 (by decide), hys, hps]
  have hpos : ∃ c ∈ threshold_grid,
      0 < f1_at [false, true] [497 / 1000, 502 / 1000] c := by
    refine ⟨1 / 100 + ((0 : ℕ) : ℚ) * (49 / 4950), ?_, ?_⟩
    · simp only [threshold_grid, List.mem_map, List.mem_range]
      exact ⟨0, by norm_num, rfl⟩
    · rw [f1_at_pair_low (by norm_num)]
      norm_num
  obtain ⟨hmem, _⟩ := best_threshold_maximizes _ _ hpos
  have hhalf : f1_at [false, true] [497 / 1000, 502 / 1000] (1 / 2) = 1 := by decide
  rw [hhalf]
  rcases grid_avoids_gap _ hmem with h | h
  · rw [f1_at_pair_low h]; norm_num
  · rw [f1_at_pair_high h]; norm_num

/-- C2 (amended): the F1 at the chosen threshold dominates the F1 at every
one of the 100 swept grid candidates on the same validation column; the
guarantee does not extend to threshold 0.5, which is not among the
candidates. -/
theorem C2_amended_chosen_dominates_grid (labels : List (List Bool))
    (probs : List (List ℚ)) (emotionNames : List String) (i : Nat)
    (hi : i < emotionNames.length) :
    ∀ c ∈ threshold_grid,
      f1_at (bcolumn labels i) (column probs i) c ≤
        f1_at (bcolumn labels i) (column probs i)
          ((find_optimal_thresholds labels probs emotionNames).getD i 0) := by
  rw [find_optimal_thresholds_getD labels probs emotionNames i hi]
  intro c hc
  by_cases hpos : ∃ d ∈ threshold_grid,
      0 < f1_at (bcolumn labels i) (column probs i) d
  · exact (best_threshold_maximizes _ _ hpos).2 c hc
  · push_neg at hpos
    exact le_trans (hpos c hc) (f1_at_nonneg _ _ _)

/-- Witness for the amended C2 at a concrete instance and at the first
concrete grid candidate. -/
theorem C2_amended_chosen_dominates_grid_witness :
    f1_at (bcolumn [[true]] 0) (column [[9 / 10]] 0)
        (1 / 100 + ((0 : ℕ) : ℚ) * (49 / 4950)) ≤
      f1_at (bcolumn [[true]] 0) (column [[9 / 10]] 0)
        ((find_optimal_thresholds [[true]] [[9 / 10]] ["sadness"]).getD 0 0) :=
  C2_amended_chosen_dominates_grid [[true]] [[9 / 10]] ["sadness"] 0 (by decide)
    (1 / 100 + ((0 : ℕ) : ℚ) * (49 / 4950))
    (by
      simp only [threshold_grid, List.mem_map, List.mem_range]
      exact ⟨0, by norm_num, rfl⟩)

/-- C6: the threshold vector has exactly one entry per emotion name, every
entry lies in [0, 1], and the persisted metadata bundle stores exactly this
vector under `optimal_thresholds`, in the same order. -/
theorem C6_threshold_vector_invariants (labels : List (List Bool))
    (probs : List (List ℚ)) (emotionNames : List String) :
    (find_optimal_thresholds labels probs emotionNames).length
        = emotionNames.length ∧
    (∀ t ∈ find_optimal_thresholds labels probs emotionNames, 0 ≤ t ∧ t ≤ 1) ∧
    (trainer_metadata_file emotionNames
        (find_optimal_thresholds labels probs emotionNames)).2.lookup
          "optimal_thresholds"
      = some (.jarr ((find_optimal_thresholds labels probs emotionNames).map
          .jnum)) := by
  refine ⟨find_optimal_thresholds_length labels probs emotionNames, ?_, rfl⟩
  intro t ht
  unfold find_optimal_thresholds at ht
  simp only [List.mem_map, List.mem_range] at ht
  obtain ⟨k, _, rfl⟩ := ht
  rcases best_threshold_mem_or_default (bcolumn labels k) (column probs k) with
    h | h
  · rw [h]; norm_num
  · obtain ⟨h1, h2⟩ := threshold_grid_bounds _ h
    constructor
    · linarith
    · linarith

lemma binary_sum_eq_count (l : List ℚ) (hbin : ∀ x ∈ l, x = 0 ∨ x = 1) :
    l.sum = (l.count 1 : ℚ) ∧ l.length = l.count 0 + l.count 1 := by
  induction l with
  | nil => simp
  | cons x xs ih =>
    obtain ⟨ih1, ih2⟩ := ih (fun y hy => hbin y (List.mem_cons_of_mem _ hy))
    rcases hbin x (List.mem_cons_self _ _) with rfl | rfl
    · constructor
      · rw [List.sum_cons, ih1]
        simp [List.count_cons]
      · simp only [List.length_cons, List.count_cons, ih2]
        norm_num
        omega
    · constructor
      · rw [List.sum_cons, ih1]
        simp only [List.count_cons]
        norm_num
        ring
      · simp only [List.length_cons, List.count_cons, ih2]
        norm_num
        omega

lemma column_length (labels : List (List ℚ)) (i : Nat) :
    (column labels i).length = labels.length := by
  unfold column
  rw [List.length_map]

lemma column_binary (labels : List (List ℚ))
    (hbin : ∀ row ∈ labels, ∀ x ∈ row, x = 0 ∨ x = 1) (i : Nat) :
    ∀ x ∈ column labels i, x = 0 ∨ x = 1 := by
  intro x hx
  unfold column at hx
  simp only [List.mem_map] at hx
  obtain ⟨row, hrow, rfl⟩ := hx
  rw [List.getD_eq_getElem?_getD]
  cases h : row[i]? with
  | none => left; rfl
  | some v => exact hbin row hrow v (List.getElem?_mem h)

lemma calculate_class_weights_getD (labels : List (List ℚ)) (i : Nat)
    (hi : i < (labels.headD []).length) :
    (calculate_class_weights labels).getD i 0 =
      if 0 < (column labels i).sum ∧
          0 < (labels.length : ℚ) - (column labels i).sum then
        min (((labels.length : ℚ) - (column labels i).sum) /
          (column labels i).sum) 10
      else 1 := by
  unfold calculate_class_weights
  rw [List.getD_eq_getElem?_getD, List.getElem?_map, List.getElem?_range hi]
  rfl

/-- C7: on a binary label matrix, the class-weight vector has one entry per
label; each entry equals `min(neg_count / pos_count, 10)` when the label
has at least one positive and at least one negative example and `1.0`
otherwise; consequently every class weight is positive and at most 10. -/
theorem C7_class_weights (labels : List (List ℚ))
    (hbin : ∀ row ∈ labels, ∀ x ∈ row, x = 0 ∨ x = 1) :
    (calculate_class_weights labels).length = (labels.headD []).length ∧
    (∀ i, i < (labels.headD []).length →
      (calculate_class_weights labels).getD i 0 =
        if 0 < (column labels i).count 1 ∧ 0 < (column labels i).count 0 then
          min (((column labels i).count 0 : ℚ) /
            ((column labels i).count 1 : ℚ)) 10
        else 1) ∧
    (∀ w ∈ calculate_class_weights labels, 0 < w ∧ w ≤ 10) := by
  refine ⟨?_, ?_, ?_⟩
  · unfold calculate_class_weights
    rw [List.length_map, List.length_range]
  · intro i hi
    rw [calculate_class_weights_getD labels i hi]
    obtain ⟨hsum, hlen⟩ := binary_sum_eq_count _ (column_binary labels hbin i)
    have hneg : (labels.length : ℚ) - (column labels i).sum =
        ((column labels i).count 0 : ℚ) := by
      rw [← column_length labels i, hlen, hsum]
      push_cast
      ring
    rw [hneg, hsum]
    split_ifs with h1 h2 h2
    · rfl
    · exact absurd ⟨Nat.cast_pos.mp h1.1, Nat.cast_pos.mp h1.2⟩ h2
    · exact absurd ⟨Nat.cast_pos.mpr h2.1, Nat.cast_pos.mpr h2.2⟩ h1
    · rfl
  · intro w hw
    obtain ⟨k, hk, rfl⟩ := List.mem_iff_getElem.mp hw
    have hk' : k < (labels.headD []).length := by
      have hlen : (calculate_class_weights labels).length
          = (labels.headD []).length := by
        unfold calculate_class_weights
        rw [List.length_map, List.length_range]
      rw [hlen] at hk
      exact hk
    rw [← List.getD_eq_getElem (calculate_class_weights labels) 0 hk,
      calculate_class_weights_getD labels k hk']
    split_ifs with h
    · exact ⟨lt_min (div_pos h.2 h.1) (by norm_num), min_le_right _ _⟩
    · norm_num

/-- Witness for C7 at a concrete binary matrix. -/
theorem C7_class_weights_witness :
    (calculate_class_weights [[1, 0], [0, 0]]).length
        = (([[1, 0], [0, 0]] : List (List ℚ)).headD []).length ∧
    (∀ i, i < (([[1, 0], [0, 0]] : List (List ℚ)).headD []).length →
      (calculate_class_weights [[1, 0], [0, 0]]).getD i 0 =
        if 0 < (column [[1, 0], [0, 0]] i).count 1 ∧
            0 < (column [[1, 0], [0, 0]] i).count 0 then
          min (((column [[1, 0], [0, 0]] i).count 0 : ℚ) /
            ((column [[1, 0], [0, 0]] i).count 1 : ℚ)) 10
        else 1) ∧
    (∀ w ∈ calculate_class_weights [[1, 0], [0, 0]], 0 < w ∧ w ≤ 10) :=
  C7_class_weights [[1, 0], [0, 0]] (by decide)

/-- C4 fails on the code (training/serving skew): the training dataset
accessor normalizes with `preprocess_text` before encoding, while
`EmotionPredictor.predict` tokenizes the raw string without applying any
normalizer, so the two normalized texts differ on any input containing a
URL. -/
theorem C4_normalizer_divergence :
    training_normalize "I feel sad http://example.com today"
        = "I feel sad today" ∧
    inference_normalize "I feel sad http://example.com today"
        = "I feel sad http://example.com today" ∧
    training_normalize "I feel sad http://example.com today" ≠
      inference_normalize "I feel sad http://example.com today" :=
  ⟨by decide, rfl, by decide⟩

/-- C5 fails: `EmotionPredictor.__init__` performs no length validation on
the loaded metadata — construction succeeds on a config whose `emotions`
and `thresholds` arrays have different lengths (2 vs 1). -/
theorem C5_counterexample :
    (EmotionPredictor.init
      ⟨true, [("emotion_config.json",
        [("emotions", .jarr [.jstr "sadness", .jstr "anger"]),
         ("thresholds", .jarr [.jnum (1 / 2)])])]⟩).isOk = true ∧
    [JsonVal.jstr "sadness", JsonVal.jstr "anger"].length ≠
      [JsonVal.jnum (1 / 2)].length :=
  ⟨rfl, by decide⟩

/-- C5 (amended): construction fails with a FileNotFound error when the
artifact directory or the metadata file is absent; when both are present
and the config carries `emotions` and `thresholds` keys, construction
succeeds storing the raw values — no vocabulary/threshold length
validation is performed. -/
theorem C5_amended_init_behaviour (dir : ModelDir) :
    (dir.present = false →
      EmotionPredictor.init dir
        = .error (.fileNotFound "Emotion model not found")) ∧
    (dir.present = true → dir.files.lookup "emotion_config.json" = none →
      EmotionPredictor.init dir
        = .error (.fileNotFound "Emotion config not found")) ∧
    (∀ cfg es ts, dir.present = true →
      dir.files.lookup "emotion_config.json" = some cfg →
      cfg.lookup "emotions" = some es →
      cfg.lookup "thresholds" = some ts →
      EmotionPredictor.init dir = .ok ⟨es, ts⟩) := by
  refine ⟨?_, ?_, ?_⟩
  · intro h
    simp [EmotionPredictor.init, h]
  · intro h1 h2
    simp [EmotionPredictor.init, h1, h2]
  · intro cfg es ts h1 h2 h3 h4
    simp [EmotionPredictor.init, h1, h2, h3, h4]

/-- Witness for the amended C5: a present directory with a well-keyed
config loads successfully. -/
theorem C5_amended_init_behaviour_witness :
    EmotionPredictor.init
        ⟨true, [("emotion_config.json",
          [("emotions", .jarr [.jstr "sadness", .jstr "anger"]),
           ("thresholds", .jarr [.jnum (2 / 5), .jnum (3 / 5)])])]⟩
      = .ok ⟨.jarr [.jstr "sadness", .jstr "anger"],
             .jarr [.jnum (2 / 5), .jnum (3 / 5)]⟩ :=
  (C5_amended_init_behaviour _).2.2 _ _ _ rfl rfl rfl rfl

/-- C9 fails: the trainer persists `emotion_info.json` with keys
`emotion_names`/`optimal_thresholds`, but the inference engine loader
reads `emotion_config.json` with keys `emotions`/`thresholds`, so loading
the trainer-persisted bundle raises FileNotFoundError instead of
recovering the pairing. -/
theorem C9_counterexample :
    EmotionPredictor.init
        ⟨true, [trainer_metadata_file ["sadness", "anger"] [2 / 5, 3 / 5]]⟩
      = .error (.fileNotFound "Emotion config not found") :=
  rfl

/-- C9 (amended): for every emotion-name list and threshold vector,
reloading the trainer-persisted metadata bundle through the inference
engine metadata loader fails with a missing-config FileNotFound error (the
file names and keys of the two components do not match), so no
`emotion_names`/`optimal_thresholds` pairing is recovered. -/
theorem C9_amended_roundtrip_fails (emotionNames : List String)
    (thresholds : List ℚ) :
    EmotionPredictor.init ⟨true, [trainer_metadata_file emotionNames thresholds]⟩
      = .error (.fileNotFound "Emotion config not found") :=
  rfl

lemma chosenColumns_positive (df : DataFrame) :
    ∀ pr ∈ chosenColumns df, 0 < pr.2.sum := by
  intro pr hpr
  unfold chosenColumns at hpr
  by_cases hsel : (selectEmotionColumns df).isEmpty
  · rw [if_pos hsel] at hpr
    cases hel : df.emotionsList with
    | none => rw [hel] at hpr; exact absurd hpr (List.not_mem_nil pr)
    | some rows =>
      rw [hel] at hpr
      unfold fallbackEmotionColumns at hpr
      simp only [List.mem_filterMap] at hpr
      obtain ⟨emo, _, heq⟩ := hpr
      by_cases hc : 0 < (rows.map (fun r => if emo ∈ r then (1 : ℚ) else 0)).sum
      · rw [if_pos hc, Option.some.injEq] at heq
        rw [← heq]
        exact hc
      · rw [if_neg hc] at heq
        exact absurd heq (by simp)
  · rw [if_neg hsel] at hpr
    unfold selectEmotionColumns at hpr
    simp only [List.mem_filterMap] at hpr
    obtain ⟨emo, _, heq⟩ := hpr
    cases hlk : df.emotionCols.lookup emo with
    | none => rw [hlk] at heq; exact absurd heq (by simp)
    | some col =>
      rw [hlk] at heq
      simp only [Option.ite_none_right_eq_some, Option.some.injEq] at heq
      rw [← heq.2]
      exact heq.1

/-- C10 fails: a dataset in which the `fear` column has zero positive
examples does not raise an error — `prepare_emotion_labels` silently drops
`fear` from the vocabulary and proceeds with the remaining labels. -/
theorem C10_counterexample :
    prepare_emotion_labels
        ⟨true, ["today was hard", "fine day"],
          [("fear", .numeric [0, 0]), ("sadness", .numeric [1, 0])], none⟩
      = .ok (["today was hard", "fine day"], [[1], [0]], ["sadness"]) :=
  rfl

/-- C10 (amended): a candidate label without positive examples is silently
excluded from the vocabulary rather than raising an error; every retained
label column has at least one positive sample; a `ValueError` is raised
only when no label at all can be retained. -/
theorem C10_amended_zero_positive_dropped (df : DataFrame) :
    (∀ texts matrix names,
      prepare_emotion_labels df = .ok (texts, matrix, names) →
        names = (chosenColumns df).map Prod.fst ∧
        ∀ pr ∈ chosenColumns df, 0 < pr.2.sum) ∧
    (df.hasTextColumn = true → (chosenColumns df).isEmpty = true →
      prepare_emotion_labels df
        = .error "No emotion columns found in dataframe") := by
  constructor
  · intro texts matrix names hok
    unfold prepare_emotion_labels at hok
    by_cases ht : df.hasTextColumn
    · rw [ht] at hok
      simp only [Bool.not_true, Bool.false_eq_true, if_false] at hok
      by_cases hfound : (chosenColumns df).isEmpty
      · rw [if_pos hfound] at hok
        exact absurd hok (by simp)
      · rw [if_neg hfound] at hok
        simp only [Except.ok.injEq, Prod.mk.injEq] at hok
        exact ⟨hok.2.2.symm, chosenColumns_positive df⟩
    · rw [Bool.not_eq_true] at ht
      rw [ht] at hok
      exact absurd hok (by simp)
  · intro h1 h2
    simp [prepare_emotion_labels, h1, h2]

/-- Witness for the amended C10 at a concrete dataframe whose `fear`
column has no positive example. -/
theorem C10_amended_zero_positive_dropped_witness :
    (["sadness"] : List String) =
      (chosenColumns ⟨true, ["today was hard", "fine day"],
        [("fear", .numeric [0, 0]), ("sadness", .numeric [1, 0])],
        none⟩).map Prod.fst ∧
    ∀ pr ∈ chosenColumns ⟨true, ["today was hard", "fine day"],
        [("fear", .numeric [0, 0]), ("sadness", .numeric [1, 0])], none⟩,
      0 < pr.2.sum :=
  (C10_amended_zero_positive_dropped _).1
    ["today was hard", "fine day"] [[1], [0]] ["sadness"] rfl

lemma round_half_even_between (q : ℚ) :
    ⌊q⌋ ≤ round_half_even q ∧ round_half_even q ≤ ⌊q⌋ + 1 := by
  unfold round_half_even
  split_ifs <;> omega

lemma round_half_even_nonneg {q : ℚ} (h : 0 ≤ q) : 0 ≤ round_half_even q := by
  have h1 := (round_half_even_between q).1
  have h2 : (0 : ℤ) ≤ ⌊q⌋ := Int.floor_nonneg.mpr h
  omega

lemma round_half_even_le_of_le {q : ℚ} {n : ℤ} (h : q ≤ (n : ℚ)) :
    round_half_even q ≤ n := by
  have h2 := (round_half_even_between q).2
  have hfl : ⌊q⌋ ≤ n := by
    have := Int.floor_le_floor h
    rwa [Int.floor_intCast] at this
  by_cases heq : ⌊q⌋ = n
  · have hlt : q - (⌊q⌋ : ℚ) < 1 / 2 := by
      rw [heq]
      linarith
    unfold round_half_even
    rw [if_pos hlt]
    omega
  · have : ⌊q⌋ < n := lt_of_le_of_ne hfl heq
    omega

lemma pyround4_mem_unit {q : ℚ} (h0 : 0 ≤ q) (h1 : q ≤ 1) :
    0 ≤ pyround4 q ∧ pyround4 q ≤ 1 := by
  unfold pyround4
  have hnn : 0 ≤ round_half_even (q * 10000) :=
    round_half_even_nonneg (by positivity)
  have hub : round_half_even (q * 10000) ≤ 10000 :=
    round_half_even_le_of_le (by push_cast; linarith)
  constructor
  · exact div_nonneg (by exact_mod_cast hnn) (by norm_num)
  · rw [div_le_one (by norm_num)]
    exact_mod_cast hub

lemma predict_results_mem_iff (emotions : List String)
    (thresholds probs : List ℚ) (pr : String × ℚ) :
    pr ∈ predict_results emotions thresholds probs false ↔
      ∃ i < emotions.length,
        thresholds.getD i 0 ≤ probs.getD i 0 ∧
        pr = (emotions.getD i "", pyround4 (probs.getD i 0)) := by
  unfold predict_results
  rw [(List.perm_insertionSort _ _).mem_iff]
  simp only [List.mem_filterMap, List.mem_range, Bool.false_or,
    decide_eq_true_eq, Option.ite_none_right_eq_some, Option.some.injEq]
  constructor
  · rintro ⟨i, hi, hc, rfl⟩
    exact ⟨i, hi, hc, rfl⟩
  · rintro ⟨i, hi, hc, rfl⟩
    exact ⟨i, hi, hc, rfl⟩

lemma predict_results_sorted (emotions : List String)
    (thresholds probs : List ℚ) (returnAll : Bool) :
    List.Pairwise (fun a b : String × ℚ => b.2 ≤ a.2)
      (predict_results emotions thresholds probs returnAll) := by
  unfold predict_results
  haveI : IsTotal (String × ℚ) (fun a b => b.2 ≤ a.2) :=
    ⟨fun a b => le_total b.2 a.2⟩
  haveI : IsTrans (String × ℚ) (fun a b => b.2 ≤ a.2) :=
    ⟨fun _ _ _ h1 h2 => le_trans h2 h1⟩
  exact List.sorted_insertionSort _ _

lemma predict_results_nil (emotions : List String) (thresholds probs : List ℚ)
    (h : ∀ i < emotions.length, probs.getD i 0 < thresholds.getD i 0) :
    predict_results emotions thresholds probs false = [] := by
  have hfm : (List.range emotions.length).filterMap (fun i =>
      if false || decide (thresholds.getD i 0 ≤ probs.getD i 0) then
        some (emotions.getD i "", pyround4 (probs.getD i 0)) else none) = [] := by
    rw [List.filterMap_eq_nil_iff]
    intro i hi
    rw [List.mem_range] at hi
    have hlt := h i hi
    rw [List.getD_eq_getElem?_getD probs, List.getD_eq_getElem?_getD thresholds]
      at hlt
    simp [not_le.mpr hlt]
  simp only [predict_results, hfm]
  rfl

/-- C3: with `return_all=False`, the predictor returns exactly the pairs
of emotions whose raw probability clears that label's stored threshold,
each paired with the probability rounded to four digits as confidence; all
confidences lie in [0, 1]; the list is sorted in descending order of
confidence; and when no label clears its threshold the result is the empty
list rather than an error or a forced top-1. -/
theorem C3_predict_contract (emotions : List String) (thresholds probs : List ℚ)
    (hlen : probs.length = emotions.length)
    (hunit : ∀ p ∈ probs, 0 ≤ p ∧ p ≤ 1) :
    (∀ pr : String × ℚ,
      pr ∈ predict_results emotions thresholds probs false ↔
        ∃ i < emotions.length,
          thresholds.getD i 0 ≤ probs.getD i 0 ∧
          pr = (emotions.getD i "", pyround4 (probs.getD i 0))) ∧
    (∀ pr ∈ predict_results emotions thresholds probs false,
      0 ≤ pr.2 ∧ pr.2 ≤ 1) ∧
    List.Pairwise (fun a b : String × ℚ => b.2 ≤ a.2)
      (predict_results emotions thresholds probs false) ∧
    ((∀ i < emotions.length, probs.getD i 0 < thresholds.getD i 0) →
      predict_results emotions thresholds probs false = []) := by
  refine ⟨predict_results_mem_iff emotions thresholds probs, ?_,
    predict_results_sorted emotions thresholds probs false,
    predict_results_nil emotions thresholds probs⟩
  intro pr hpr
  obtain ⟨i, hi, _, rfl⟩ :=
    (predict_results_mem_iff emotions thresholds probs pr).mp hpr
  have hmem : probs.getD i 0 ∈ probs := by
    rw [List.getD_eq_getElem probs 0 (by rw [hlen]; exact hi)]
    exact List.getElem_mem _
  obtain ⟨h0, h1⟩ := hunit _ hmem
  exact pyround4_mem_unit h0 h1

/-- Witness for C3 at the spec scenario: vocabulary [sadness, anger],
thresholds [0.4, 0.6], probabilities [0.5, 0.5]; the returned list is
exactly [(sadness, 0.5)], anger being excluded since 0.5 < 0.6. -/
theorem C3_predict_contract_witness :
    ([1 / 2, 1 / 2] : List ℚ).length
        = (["sadness", "anger"] : List String).length ∧
    (∀ p ∈ ([1 / 2, 1 / 2] : List ℚ), 0 ≤ p ∧ p ≤ 1) ∧
    predict_results ["sadness", "anger"] [2 / 5, 3 / 5] [1 / 2, 1 / 2] false
        = [("sadness", 1 / 2)] ∧
    ((∀ pr : String × ℚ,
      pr ∈ predict_results ["sadness", "anger"] [2 / 5, 3 / 5]
          [1 / 2, 1 / 2] false ↔
        ∃ i < (["sadness", "anger"] : List String).length,
          ([2 / 5, 3 / 5] : List ℚ).getD i 0
              ≤ ([1 / 2, 1 / 2] : List ℚ).getD i 0 ∧
          pr = ((["sadness", "anger"] : List String).getD i "",
            pyround4 (([1 / 2, 1 / 2] : List ℚ).getD i 0))) ∧
    (∀ pr ∈ predict_results ["sadness", "anger"] [2 / 5, 3 / 5]
        [1 / 2, 1 / 2] false, 0 ≤ pr.2 ∧ pr.2 ≤ 1) ∧
    List.Pairwise (fun a b : String × ℚ => b.2 ≤ a.2)
      (predict_results ["sadness", "anger"] [2 / 5, 3 / 5] [1 / 2, 1 / 2] false) ∧
    ((∀ i < (["sadness", "anger"] : List String).length,
        ([1 / 2, 1 / 2] : List ℚ).getD i 0
          < ([2 / 5, 3 / 5] : List ℚ).getD i 0) →
      predict_results ["sadness", "anger"] [2 / 5, 3 / 5] [1 / 2, 1 / 2] false
        = [])) :=
  ⟨by decide, by decide, by decide,
    C3_predict_contract ["sadness", "anger"] [2 / 5, 3 / 5] [1 / 2, 1 / 2]
      (by decide) (by decide)⟩

lemma sigmoid_pos (x : ℝ) : 0 < sigmoid x := by
  unfold sigmoid
  positivity

lemma one_sub_sigmoid (x : ℝ) :
    1 - sigmoid x = Real.exp (-x) / (1 + Real.exp (-x)) := by
  unfold sigmoid
  have hpos : (0 : ℝ) < 1 + Real.exp (-x) := by positivity
  field_simp

lemma log_sigmoid (x : ℝ) :
    Real.log (sigmoid x) = -Real.log (1 + Real.exp (-x)) := by
  unfold sigmoid
  have hpos : (0 : ℝ) < 1 + Real.exp (-x) := by positivity
  rw [Real.log_div one_ne_zero (ne_of_gt hpos), Real.log_one]
  ring

lemma log_one_sub_sigmoid (x : ℝ) :
    Real.log (1 - sigmoid x) = -x - Real.log (1 + Real.exp (-x)) := by
  rw [one_sub_sigmoid]
  have hpos : (0 : ℝ) < 1 + Real.exp (-x) := by positivity
  rw [Real.log_div (ne_of_gt (Real.exp_pos _)) (ne_of_gt hpos), Real.log_exp]

lemma bce_with_logits_eq (x z : ℝ) :
    bce_with_logits x z = (1 - z) * x + Real.log (1 + Real.exp (-x)) := by
  unfold bce_with_logits
  rcases le_or_lt 0 x with h | h
  · rw [abs_of_nonneg h, max_eq_left h]
    ring
  · rw [abs_of_neg h, max_eq_right (le_of_lt h), neg_neg]
    have hsplit : Real.log (1 + Real.exp x)
        = x + Real.log (1 + Real.exp (-x)) := by
      have hre : (1 : ℝ) + Real.exp x
          = Real.exp x * (1 + Real.exp (-x)) := by
        rw [mul_add, mul_one, ← Real.exp_add]
        simp
        ring
      rw [hre, Real.log_mul (ne_of_gt (Real.exp_pos x))
        (by positivity), Real.log_exp]
    rw [hsplit]
    ring

lemma focal_elem_std (alpha gamma x z : ℝ) (hz : z = 0 ∨ z = 1) :
    focal_elem alpha gamma x z
      = alpha * (1 - p_t x z) ^ gamma * (-Real.log (p_t x z)) := by
  rcases hz with rfl | rfl
  · have hpt : p_t x 0 = 1 - sigmoid x := by
      unfold p_t
      ring
    have hbce : bce_with_logits x 0 = -Real.log (p_t x 0) := by
      rw [hpt, bce_with_logits_eq, log_one_sub_sigmoid]
      ring
    unfold focal_elem
    rw [hbce]
  · have hpt : p_t x 1 = sigmoid x := by
      unfold p_t
      ring
    have hbce : bce_with_logits x 1 = -Real.log (p_t x 1) := by
      rw [hpt, bce_with_logits_eq, log_sigmoid]
      ring
    unfold focal_elem
    rw [hbce]

lemma zipWith_congr_mem {α β γ : Type} (f g : α → β → γ) :
    ∀ (l1 : List α) (l2 : List β),
      (∀ a ∈ l1, ∀ b ∈ l2, f a b = g a b) →
      List.zipWith f l1 l2 = List.zipWith g l1 l2 := by
  intro l1
  induction l1 with
  | nil => intro l2 _; rfl
  | cons a as ih =>
    intro l2 h
    cases l2 with
    | nil => rfl
    | cons b bs =>
      simp only [List.zipWith_cons_cons]
      rw [h a (List.mem_cons_self _ _) b (List.mem_cons_self _ _),
        ih bs (fun a' ha' b' hb' =>
          h a' (List.mem_cons_of_mem _ ha') b' (List.mem_cons_of_mem _ hb'))]

lemma matCount_zipWith (f : ℝ → ℝ → ℝ) (X : List (List ℝ)) :
    ∀ (Z : List (List ℝ)) (m : ℕ), X.length = Z.length →
      (∀ row ∈ X, row.length = m) → (∀ row ∈ Z, row.length = m) →
      matCount (matZipWith f X Z) = X.length * m := by
  induction X with
  | nil =>
    intro Z m _ _ _
    simp [matZipWith, matCount]
  | cons rx xs ih =>
    intro Z m hlen hX hZ
    cases Z with
    | nil => simp at hlen
    | cons rz zs =>
      unfold matZipWith matCount
      simp only [List.zipWith_cons_cons, List.map_cons, List.sum_cons,
        List.length_cons]
      rw [List.length_zipWith, hX rx (List.mem_cons_self _ _),
        hZ rz (List.mem_cons_self _ _), min_self]
      have hrec := ih zs m (by simpa using hlen)
        (fun r hr => hX r (List.mem_cons_of_mem _ hr))
        (fun r hr => hZ r (List.mem_cons_of_mem _ hr))
      unfold matZipWith matCount at hrec
      rw [hrec]
      ring

/-- C8: on a binary target matrix, the focal loss of `FocalLoss.forward`
equals the mean over all examples and labels of
`alpha * (1 - p_t) ^ gamma * BCE`, where `p_t` is the sigmoid probability
of the true class and `BCE = -log(p_t)` is the standard binary cross
entropy of that element, the implementation computing the BCE term through
the stable sigmoid-cross-entropy formulation on logits; also, the
constructor defaults are `gamma = 2.0` and `alpha = 1.0`. -/
theorem C8_focal_loss (alpha gamma : ℝ) (X Z : List (List ℝ)) (m : ℕ)
    (hlen : X.length = Z.length)
    (hX : ∀ row ∈ X, row.length = m) (hZ : ∀ row ∈ Z, row.length = m)
    (hbin : ∀ row ∈ Z, ∀ z ∈ row, z = 0 ∨ z = 1) :
    (FocalLoss.forward alpha gamma X Z
      = matSum (matZipWith
          (fun x z => alpha * (1 - p_t x z) ^ gamma * (-Real.log (p_t x z)))
          X Z) / ((X.length * m : ℕ) : ℝ)) ∧
    ({} : FocalLossParams).alpha = 1 ∧ ({} : FocalLossParams).gamma = 2 := by
  refine ⟨?_, rfl, rfl⟩
  unfold FocalLoss.forward matMean
  have hcong : matZipWith (focal_elem alpha gamma) X Z
      = matZipWith
          (fun x z => alpha * (1 - p_t x z) ^ gamma * (-Real.log (p_t x z)))
          X Z := by
    unfold matZipWith
    apply zipWith_congr_mem
    intro rx _ rz hrz
    apply zipWith_congr_mem
    intro x _ z hz
    exact focal_elem_std alpha gamma x z (hbin rz hrz z hz)
  rw [hcong, matCount_zipWith _ X Z m hlen hX hZ]

/-- Witness for C8 at logit 0 with a present label. -/
theorem C8_focal_loss_witness :
    ([[0]] : List (List ℝ)).length = ([[1]] : List (List ℝ)).length ∧
    (∀ row ∈ ([[(0 : ℝ)]] : List (List ℝ)), row.length = 1) ∧
    (∀ row ∈ ([[(1 : ℝ)]] : List (List ℝ)), row.length = 1) ∧
    (∀ row ∈ ([[(1 : ℝ)]] : List (List ℝ)), ∀ z ∈ row, z = 0 ∨ z = 1) ∧
    ((FocalLoss.forward 1 2 [[0]] [[1]]
      = matSum (matZipWith
          (fun x z => 1 * (1 - p_t x z) ^ (2 : ℝ) * (-Real.log (p_t x z)))
          [[0]] [[1]]) / ((([[(0 : ℝ)]] : List (List ℝ)).length * 1 : ℕ) : ℝ)) ∧
    ({} : FocalLossParams).alpha = 1 ∧ ({} : FocalLossParams).gamma = 2) :=
  ⟨rfl, by simp, by simp, by simp,
    C8_focal_loss 1 2 [[0]] [[1]] 1 rfl (by simp) (by simp) (by simp)⟩

end HackX
